import Mathlib

/-!
Shallow embedding of `script.tvmaze/libs/scrobbling_service.py` (a Kodi addon
that scrobbles watched/acquired episode statuses to the TVmaze service), with
theorems settling the frozen claims about its specification.

External collaborators (the Kodi JSON-RPC medialibrary, the TVmaze HTTP
client, GUI dialogs) are modelled as explicit inputs: pure functions and
outcome values supplied to the embedded drivers.  Remote calls and library
write-backs performed by the code are recorded in explicit effect lists so
that claims about "no remote call" or "write-through" are statable.
-/

/-! ## Model of Python `int()` / `str()` on decimal strings

`_get_tvmaze_id` applies the Python builtin `int` to a stored identifier
string, and the write-through path stores a numeric id back into a
`Dict[Text, Text]`.  We model `int()` as `py_int` (optional sign, surrounding
whitespace, decimal digits; anything else raises, modelled as `none`) and
`str()` on integers as `py_str_int`. -/

def isSpaceChar (c : Char) : Bool :=
  c = ' ' || c = '\t' || c = '\n' || c = '\r'

/-- Accumulating decimal evaluation of a digit list, most significant first. -/
def digitsToNat : List Char → Nat → Nat
  | [], acc => acc
  | c :: cs, acc => digitsToNat cs (acc * 10 + (c.toNat - 48))

/-- Decimal digits of `n`, least significant first. -/
def natToRevDigits (n : Nat) : List Char :=
  if h : n < 10 then [Char.ofNat (48 + n)]
  else Char.ofNat (48 + n % 10) :: natToRevDigits (n / 10)
decreasing_by exact Nat.div_lt_self (by omega) (by omega)

def py_str_nat (n : Nat) : String :=
  String.mk (natToRevDigits n).reverse

/-- Model of Python `str` on an `int` value. -/
def py_str_int : Int → String
  | .ofNat n => py_str_nat n
  | .negSucc m => String.mk ('-' :: (natToRevDigits (m + 1)).reverse)

def pyTrim (cs : List Char) : List Char :=
  ((cs.dropWhile isSpaceChar).reverse.dropWhile isSpaceChar).reverse

/-- Model of Python `int()` on a string: strip surrounding whitespace, allow
an optional single sign, then require one or more decimal digits; every other
input raises `ValueError`, modelled as `none`. -/
def py_int (s : String) : Option Int :=
  match pyTrim s.toList with
  | [] => none
  | c :: rest =>
    if c = '-' then
      if rest ≠ [] && rest.all Char.isDigit then some (-(digitsToNat rest 0 : Nat)) else none
    else if c = '+' then
      if rest ≠ [] && rest.all Char.isDigit then some ((digitsToNat rest 0 : Nat) : Int) else none
    else
      if (c :: rest).all Char.isDigit then some ((digitsToNat (c :: rest) 0 : Nat) : Int) else none

/-- A character produced by `natToRevDigits`: a decimal digit that is not a
space, not a sign. -/
def plainDigit (c : Char) : Bool :=
  c.isDigit && !isSpaceChar c && !(c = '-') && !(c = '+')

lemma digit_char_plain (d : Nat) (h : d < 10) :
    plainDigit (Char.ofNat (48 + d)) = true ∧ (Char.ofNat (48 + d)).toNat = 48 + d := by
  interval_cases d <;> exact ⟨by decide, by decide⟩

lemma digitsToNat_append (l1 l2 : List Char) (acc : Nat) :
    digitsToNat (l1 ++ l2) acc = digitsToNat l2 (digitsToNat l1 acc) := by
  induction l1 generalizing acc with
  | nil => rfl
  | cons c cs ih => simp [digitsToNat, ih]

lemma natToRevDigits_spec (n : Nat) :
    (natToRevDigits n) ≠ [] ∧ (natToRevDigits n).all plainDigit = true ∧
      ∀ acc, digitsToNat (natToRevDigits n).reverse acc =
        acc * 10 ^ (natToRevDigits n).length + n := by
  induction n using Nat.strong_induction_on with
  | _ n ih =>
    rw [natToRevDigits]
    by_cases h : n < 10
    · simp only [h, dite_true]
      refine ⟨by simp, by simp [(digit_char_plain n h).1], ?_⟩
      intro acc
      simp [digitsToNat, (digit_char_plain n h).2]
      try omega
    · simp only [h, dite_false]
      have hd : n / 10 < n := Nat.div_lt_self (by omega) (by omega)
      obtain ⟨hne, hall, hval⟩ := ih (n / 10) hd
      have hdig := digit_char_plain (n % 10) (Nat.mod_lt n (by omega))
      refine ⟨by simp, by simp [hall, hdig.1], ?_⟩
      intro acc
      simp only [List.reverse_cons, digitsToNat_append, hval, List.length_cons]
      simp [digitsToNat, hdig.2, pow_succ]
      ring_nf
      omega

lemma dropWhile_of_all_nonspace (cs : List Char)
    (h : cs.all (fun c => !isSpaceChar c) = true) : cs.dropWhile isSpaceChar = cs := by
  cases cs with
  | nil => rfl
  | cons c rest =>
    simp only [List.all_cons, Bool.and_eq_true, Bool.not_eq_true'] at h
    simp [List.dropWhile_cons, h.1]

lemma pyTrim_of_all_nonspace (cs : List Char)
    (h : cs.all (fun c => !isSpaceChar c) = true) : pyTrim cs = cs := by
  have h2 : cs.reverse.all (fun c => !isSpaceChar c) = true := by
    simpa using h
  unfold pyTrim
  rw [dropWhile_of_all_nonspace cs h, dropWhile_of_all_nonspace cs.reverse h2,
    List.reverse_reverse]

lemma plainDigit_nonspace (cs : List Char) (h : cs.all plainDigit = true) :
    cs.all (fun c => !isSpaceChar c) = true := by
  rw [List.all_eq_true] at h ⊢
  intro c hc
  have := h c hc
  simp only [plainDigit, Bool.and_eq_true] at this
  exact this.1.1.2

lemma plainDigit_isDigit (cs : List Char) (h : cs.all plainDigit = true) :
    cs.all Char.isDigit = true := by
  rw [List.all_eq_true] at h ⊢
  intro c hc
  have := h c hc
  simp only [plainDigit, Bool.and_eq_true] at this
  exact this.1.1.1

lemma py_int_py_str_nat (n : Nat) : py_int (py_str_nat n) = some (Int.ofNat n) := by
  obtain ⟨hne, hall, hval⟩ := natToRevDigits_spec n
  have hallrev : (natToRevDigits n).reverse.all plainDigit = true := by simpa using hall
  have htrim : pyTrim (natToRevDigits n).reverse = (natToRevDigits n).reverse :=
    pyTrim_of_all_nonspace _ (plainDigit_nonspace _ hallrev)
  have hlist : (py_str_nat n).toList = (natToRevDigits n).reverse := rfl
  rw [py_int, hlist, htrim]
  cases hrev : (natToRevDigits n).reverse with
  | nil => exact absurd (by simpa using congrArg List.reverse hrev) hne
  | cons c rest =>
    have hcplain : plainDigit c = true := by
      have := hallrev
      rw [hrev, List.all_cons, Bool.and_eq_true] at this
      exact this.1
    simp only [plainDigit, Bool.and_eq_true, Bool.not_eq_true', decide_eq_false_iff_not] at hcplain
    simp only [if_neg hcplain.1.2, if_neg hcplain.2]
    have hdig : (c :: rest).all Char.isDigit = true := by
      rw [← hrev]
      exact plainDigit_isDigit _ hallrev
    rw [if_pos hdig]
    have := hval 0
    rw [hrev] at this
    simp only [Nat.zero_mul, Nat.zero_add] at this
    rw [this]
    rfl

lemma py_int_py_str_int (t : Int) : py_int (py_str_int t) = some t := by
  cases t with
  | ofNat n => exact py_int_py_str_nat n
  | negSucc m =>
    obtain ⟨hne, hall, hval⟩ := natToRevDigits_spec (m + 1)
    have hallrev : (natToRevDigits (m + 1)).reverse.all plainDigit = true := by simpa using hall
    have hlist : (py_str_int (.negSucc m)).toList = '-' :: (natToRevDigits (m + 1)).reverse := rfl
    have hnsp : ('-' :: (natToRevDigits (m + 1)).reverse).all (fun c => !isSpaceChar c) = true := by
      rw [List.all_cons, plainDigit_nonspace _ hallrev]
      decide
    have htrim := pyTrim_of_all_nonspace _ hnsp
    rw [py_int, hlist, htrim]
    have hrne : (natToRevDigits (m + 1)).reverse ≠ [] := by
      intro hc
      exact absurd (by simpa using congrArg List.reverse hc) hne
    simp only [if_pos rfl]
    have hcond : ((natToRevDigits (m + 1)).reverse ≠ [] &&
        (natToRevDigits (m + 1)).reverse.all Char.isDigit) = true := by
      simp only [Bool.and_eq_true, decide_eq_true_eq]
      exact ⟨hrne, plainDigit_isDigit _ hallrev⟩
    rw [if_pos hcond]
    have := hval 0
    simp only [Nat.zero_mul, Nat.zero_add] at this
    rw [this]
    simp [Int.negSucc_eq]

/-! ## Data model

Records from the Kodi JSON-RPC API are loosely-typed dictionaries in the
source; here they become explicit structures with the fields the module
reads.  A `uniqueid` dictionary (`Dict[Text, Text]`) is an association list
looked up with `alookup` (Python `dict.get`). -/

/-- Association-list lookup, modelling Python `dict.get` (each key occurs at
most once in a real dict; the first binding wins). -/
def alookup {β : Type} : List (String × β) → String → Option β
  | [], _ => none
  | (k, v) :: rest, key => if k = key then some v else alookup rest key

/-- `SUPPORTED_IDS = ('tvmaze', 'tvdb', 'imdb')` -/
def SUPPORTED_IDS : List String := ["tvmaze", "tvdb", "imdb"]

/-- `UniqueId = namedtuple('UniqueId', ['show_id', 'provider'])` -/
structure UniqueId where
  show_id : String
  provider : String
deriving DecidableEq

/-! `StatusType`: integer status codes. -/

namespace StatusType

def WATCHED : Nat := 0

def ACQUIRED : Nat := 1

def SKIPPED : Nat := 2

end StatusType

/-- A local episode record, with the fields the module reads. -/
structure Episode where
  season : Nat
  episode : Nat
  playcount : Nat
  tvshowid : Nat
deriving DecidableEq

/-- One update record of the TVmaze payload built by `_prepare_episode_list`. -/
structure TvmazeEpisode where
  season : Nat
  episode : Nat
  marked_at : Nat
  type : Nat
deriving DecidableEq

/-- A local show record, with the fields the module reads. -/
structure KodiShow where
  tvshowid : Nat
  label : String
  uniqueid : List (String × String)
deriving DecidableEq

/-! ## `_get_unique_id` -/

/-- The `for provider in SUPPORTED_IDS` loop body of `_get_unique_id`:
return the first present identifier, renaming provider `tvdb` to `thetvdb`. -/
def _get_unique_id_loop (uniqueid_dict : List (String × String)) :
    List String → Option UniqueId
  | [] => none
  | provider :: rest =>
    match alookup uniqueid_dict provider with
    | some show_id => some ⟨show_id, if provider = "tvdb" then "thetvdb" else provider⟩
    | none => _get_unique_id_loop uniqueid_dict rest

/-- `_get_unique_id(uniqueid_dict)` -/
def _get_unique_id (uniqueid_dict : List (String × String)) : Option UniqueId :=
  _get_unique_id_loop uniqueid_dict SUPPORTED_IDS

/-! ## `_prepare_episode_list`

`marked_at` is `int(time.time())` at formatting time; the embedding passes
the clock reading as the explicit parameter `now`. -/

def _prepare_episode_list (now : Nat) : List Episode → List TvmazeEpisode
  | [] => []
  | episode :: rest =>
    if episode.season ≠ 0 then
      { season := episode.season
        episode := episode.episode
        marked_at := now
        type := if episode.playcount ≠ 0 then StatusType.WATCHED else StatusType.ACQUIRED } ::
        _prepare_episode_list now rest
    else
      _prepare_episode_list now rest

/-! ## `_get_tvmaze_id`

The TVmaze client function `get_show_info_by_external_id(show_id, provider)`
is an external collaborator; it is modelled as a pure function
`ext : String → String → Option Int` where `none` models `GetInfoError` and
`some tid` models a successful reply whose `show_info['id']` is `tid`.
Remote lookup calls and `set_show_uniqueid` write-backs are recorded in
effect lists, in the order the source performs them. -/

inductive ResolveResult where
  /-- `_get_tvmaze_id` returned (`none` models Python `None`). -/
  | ok (tid : Option Int)
  /-- the unguarded `int(...)` conversion raised `ValueError`. -/
  | valueError
deriving DecidableEq

structure ResolveOut where
  result : ResolveResult
  /-- arguments of each `get_show_info_by_external_id` call made -/
  lookup_calls : List (String × String)
  /-- arguments of each `set_show_uniqueid` call made -/
  writes : List (Nat × Int)
deriving DecidableEq

def _get_tvmaze_id (ext : String → String → Option Int) (kodi_show_info : KodiShow) :
    ResolveOut :=
  match _get_unique_id kodi_show_info.uniqueid with
  | none => ⟨.ok none, [], []⟩
  | some unique_id =>
    if unique_id.provider = "tvmaze" then
      match py_int unique_id.show_id with
      | some n => ⟨.ok (some n), [], []⟩
      | none => ⟨.valueError, [], []⟩
    else
      match ext unique_id.show_id unique_id.provider with
      | none => ⟨.ok none, [(unique_id.show_id, unique_id.provider)], []⟩
      | some tvmaze_id =>
        ⟨.ok (some tvmaze_id), [(unique_id.show_id, unique_id.provider)],
          [(kodi_show_info.tvshowid, tvmaze_id)]⟩

/-- Modelled from the spec: `medialibrary_api.set_show_uniqueid` is not under
`src/`; per the spec it persists the resolved remote ID back onto the local
show record (write-through cache).  The record's `uniqueid` dictionary gains
the binding `tvmaze ↦ str(tvmaze_id)`; prepending shadows any older binding
under `alookup`. -/
def set_show_uniqueid (s : KodiShow) (tvmaze_id : Int) : KodiShow :=
  { s with uniqueid := ("tvmaze", py_str_int tvmaze_id) :: s.uniqueid }

/-- Apply the recorded `set_show_uniqueid` calls to a library state
(a map from `tvshowid` to the stored show record). -/
def applyWrites (lib : Nat → KodiShow) (writes : List (Nat × Int)) : Nat → KodiShow :=
  writes.foldl (fun l w sid => if sid = w.1 then set_show_uniqueid (l sid) w.2 else l sid) lib

/-! ## `authorize_addon`

The GUI collaborators (yes/no dialog, on-screen keyboard, QR confirmation
dialog) and the TVmaze `start_authorization` call are external; their
outcomes for one run are supplied in `AuthEnv`.  The embedded function
returns the stored settings after the run together with the list of
`start_authorization` calls issued (the token requests). -/

/-- The email pattern `^[\w.\-+]+@[\w.-]+\.[\w]+$` from the source, with
`\w` modelled as ASCII alphanumerics plus underscore. -/
def isWordChar (c : Char) : Bool := c.isAlphanum || c = '_'

def isLocalChar (c : Char) : Bool := isWordChar c || c = '.' || c = '-' || c = '+'

def isDomainChar (c : Char) : Bool := isWordChar c || c = '.' || c = '-'

/-- Matches `[\w.-]+\.[\w]+` against a whole character list: some dot splits
it into a non-empty `[\w.-]+` part and a non-empty `[\w]+` part (the search
over every split position models the regex engine's backtracking). -/
def domainMatch (cs : List Char) : Bool :=
  (List.range cs.length).any fun i =>
    cs[i]? == some '.' && 0 < i && (cs.take i).all isDomainChar &&
      i + 1 < cs.length && (cs.drop (i + 1)).all isWordChar

/-- Whole-string match of the source's email pattern: exactly one `@`, a
non-empty `[\w.\-+]+` local part, and a domain matching `[\w.-]+\.[\w]+`. -/
def validEmail (s : String) : Bool :=
  match s.splitOn "@" with
  | [localPart, domain] =>
    !localPart.isEmpty && localPart.toList.all isLocalChar && domainMatch domain.toList
  | _ => false

/-- Outcome of the QR confirmation dialog: `confirmed` carries the username
and API key the dialog obtained; `errorMsg` models a non-`None`
`error_message`; `cancelled` models an unconfirmed dialog without error. -/
inductive ConfirmOutcome where
  | confirmed (username : String) (apikey : String)
  | errorMsg (message : String)
  | cancelled
deriving DecidableEq

def is_confirmed_outcome : ConfirmOutcome → Bool
  | .confirmed _ _ => true
  | _ => false

/-- Addon settings persisted by `ADDON.setSettingString`. -/
structure Settings where
  username : String
  apikey : String
deriving DecidableEq

/-- Collaborator outcomes for one `authorize_addon` run. -/
structure AuthEnv where
  /-- `is_authorized()` -/
  authorized : Bool
  /-- answer to the `already authorized, authorize again?` yes/no dialog -/
  reauth_answer : Bool
  /-- `keyboard.isConfirmed()` -/
  keyboard_confirmed : Bool
  /-- `keyboard.getText()` -/
  keyboard_text : String
  /-- `start_authorization(email)`: `none` models `AuthorizationError`,
  `some (token, confirm_url)` a successful reply -/
  start_auth : Option (String × String)
  /-- outcome of the confirmation dialog -/
  confirm_outcome : ConfirmOutcome

structure AuthResult where
  settings : Settings
  /-- the emails passed to each `start_authorization` call issued -/
  token_requests : List String
  /-- the user-facing notice shown, if any -/
  notice : Option String
deriving DecidableEq

def authorize_addon (env : AuthEnv) (st : Settings) : AuthResult :=
  if env.authorized && !env.reauth_answer then ⟨st, [], none⟩
  else if !env.keyboard_confirmed then ⟨st, [], none⟩
  else
    let email := env.keyboard_text
    if !validEmail email then ⟨st, [], some "Invalid email"⟩
    else
      match env.start_auth with
      | none => ⟨st, [email], some "Authorization error"⟩
      | some _ =>
        match env.confirm_outcome with
        | .confirmed u k =>
          ⟨⟨u, k⟩, [email], some "Addon has been authorized successfully"⟩
        | .errorMsg _ => ⟨st, [email], some "Confirmation error"⟩
        | .cancelled => ⟨st, [email], none⟩

/-! ## `update_all_episodes`

External collaborators for one full-sync run: the TVmaze external-ID lookup
`ext`, the medialibrary `get_episodes` (with `none` modelling `NoDataError`),
the outcome of each `send_episodes` call (`sendOk t p = false` models
`UpdateError`), and the clock.  The show list was fetched once up front by
`get_tvshows`, so `set_show_uniqueid` write-backs cannot affect this pass and
are not threaded here.  Every `send_episodes` call made is recorded in order
in `sent`; `errors` is the aggregate had-errors flag. -/

structure AllEnv where
  ext : String → String → Option Int
  episodes : Nat → Option (List Episode)
  sendOk : Int → List TvmazeEpisode → Bool
  now : Nat

inductive AllOutcome where
  /-- `is_authorized()` was false: silent no-op -/
  | notAuthorized
  /-- `get_tvshows()` raised `NoDataError`: no-op -/
  | noData
  /-- the run reached the end-of-run notification -/
  | finished (errors : Bool) (sent : List (Int × List TvmazeEpisode))
  /-- an unguarded `int(...)` conversion raised out of the loop -/
  | raised
deriving DecidableEq

/-- The `for n, show in enumerate(tv_shows, 1)` loop of `update_all_episodes`
(progress-dialog updates and logging omitted; they carry no data the claims
mention). -/
def runAllAux (env : AllEnv) (errors : Bool) (sent : List (Int × List TvmazeEpisode)) :
    List KodiShow → Option (Bool × List (Int × List TvmazeEpisode))
  | [] => some (errors, sent)
  | s :: rest =>
    match (_get_tvmaze_id env.ext s).result with
    | .valueError => none
    | .ok none => runAllAux env errors sent rest
    | .ok (some tvmaze_id) =>
      match env.episodes s.tvshowid with
      | none => runAllAux env errors sent rest
      | some episodes =>
        let payload := _prepare_episode_list env.now episodes
        if env.sendOk tvmaze_id payload then
          runAllAux env errors (sent ++ [(tvmaze_id, payload)]) rest
        else
          runAllAux env true (sent ++ [(tvmaze_id, payload)]) rest

def update_all_episodes (authorized : Bool) (env : AllEnv)
    (tv_shows : Option (List KodiShow)) : AllOutcome :=
  if !authorized then .notAuthorized
  else
    match tv_shows with
    | none => .noData
    | some shows =>
      match runAllAux env false [] shows with
      | none => .raised
      | some (errors, sent) => .finished errors sent

/-- The end-of-run notification text of both batch drivers. -/
def notificationOf : AllOutcome → Option String
  | .finished true _ => some "Update completed with errors"
  | .finished false _ => some "Update completed"
  | _ => none

/-- What one show contributes to the full sync: `none` if its TVmaze id
cannot be determined (or it has no episodes), otherwise the send call made
for it. -/
def submitOf (env : AllEnv) (s : KodiShow) : Option (Int × List TvmazeEpisode) :=
  match (_get_tvmaze_id env.ext s).result with
  | .ok (some tvmaze_id) =>
    match env.episodes s.tvshowid with
    | some episodes => some (tvmaze_id, _prepare_episode_list env.now episodes)
    | none => none
  | _ => none

/-! ## `update_recent_episodes`

This driver re-reads show records through `get_tvshow_details` and may write
back resolved ids through `set_show_uniqueid`, so the library is threaded as
explicit state: `lib : Nat → KodiShow` maps a `tvshowid` to its current
record.  `id_mapping` and the `defaultdict(list)` `episode_mapping` are
association lists in insertion order; `resolve_log` records the `tvshowid`
of every `_get_tvmaze_id` invocation. -/

/-- Association-list lookup keyed by `Nat` (the `in` / `[]` operations on
`id_mapping`). -/
def nlookup {β : Type} : List (Nat × β) → Nat → Option β
  | [], _ => none
  | (k, v) :: rest, key => if k = key then some v else nlookup rest key

/-- Association-list lookup keyed by `Int` (access to `episode_mapping`). -/
def zlookup {β : Type} : List (Int × β) → Int → Option β
  | [], _ => none
  | (k, v) :: rest, key => if k = key then some v else zlookup rest key

/-- `episode_mapping[tvmaze_id].append(episode)` on a `defaultdict(list)`:
append to the existing binding, or create a new binding at the end. -/
def appendGroup : List (Int × List Episode) → Int → Episode → List (Int × List Episode)
  | [], t, e => [(t, [e])]
  | (k, l) :: rest, t, e =>
    if k = t then (k, l ++ [e]) :: rest else (k, l) :: appendGroup rest t e

/-- The episode list stored under key `t` (empty when absent). -/
def groupOf (m : List (Int × List Episode)) (t : Int) : List Episode :=
  (zlookup m t).getD []

structure RecentState where
  lib : Nat → KodiShow
  id_mapping : List (Nat × Int)
  episode_mapping : List (Int × List Episode)
  /-- the `tvshowid` of each `_get_tvmaze_id` invocation, in order -/
  resolve_log : List Nat

/-- One iteration of the `for episode in recent_episodes` loop.  `none`
models a `ValueError` escaping from the unguarded `int(...)` conversion. -/
def recentStep (ext : String → String → Option Int) (st : RecentState) (e : Episode) :
    Option RecentState :=
  match nlookup st.id_mapping e.tvshowid with
  | some tvmaze_id =>
    some { st with episode_mapping := appendGroup st.episode_mapping tvmaze_id e }
  | none =>
    let show_info := st.lib e.tvshowid
    let r := _get_tvmaze_id ext show_info
    match r.result with
    | .valueError => none
    | .ok none => some { st with resolve_log := st.resolve_log ++ [e.tvshowid] }
    | .ok (some tvmaze_id) =>
      some { lib := applyWrites st.lib r.writes
             id_mapping := st.id_mapping ++ [(e.tvshowid, tvmaze_id)]
             episode_mapping := appendGroup st.episode_mapping tvmaze_id e
             resolve_log := st.resolve_log ++ [e.tvshowid] }

def runRecentAux (ext : String → String → Option Int) (st : RecentState) :
    List Episode → Option RecentState
  | [] => some st
  | e :: rest =>
    match recentStep ext st e with
    | none => none
    | some st2 => runRecentAux ext st2 rest

/-- The grouping phase of `update_recent_episodes`, run from a library state
`lib0` over the fetched recent-episode list. -/
def runRecent (ext : String → String → Option Int) (lib0 : Nat → KodiShow)
    (recent_episodes : List Episode) : Option RecentState :=
  runRecentAux ext ⟨lib0, [], [], []⟩ recent_episodes

/-- Resolution of show `sid` against the initial library state (what
`_get_tvmaze_id(get_tvshow_details(sid))` yields before any write-back). -/
def pureRes (ext : String → String → Option Int) (lib0 : Nat → KodiShow) (sid : Nat) :
    ResolveResult :=
  (_get_tvmaze_id ext (lib0 sid)).result

/-- The TVmaze id show `sid` resolves to, if resolution succeeds. -/
def pureId (ext : String → String → Option Int) (lib0 : Nat → KodiShow) (sid : Nat) :
    Option Int :=
  match pureRes ext lib0 sid with
  | .ok t => t
  | .valueError => none

/-- The submission loop of `update_recent_episodes`: one
`_send_show_episodes_to_tvmaze(tvmaze_id, episodes)` call per entry of
`episode_mapping`, each sending the prepared payload of its whole group. -/
def recent_submissions (now : Nat) (st : RecentState) : List (Int × List TvmazeEpisode) :=
  st.episode_mapping.map fun g => (g.1, _prepare_episode_list now g.2)

inductive RecentOutcome where
  | notAuthorized
  | noData
  | finished (errors : Bool) (sent : List (Int × List TvmazeEpisode))
  | raised

def update_recent_episodes (authorized : Bool) (ext : String → String → Option Int)
    (sendOk : Int → List TvmazeEpisode → Bool) (now : Nat) (lib0 : Nat → KodiShow)
    (recent_episodes : Option (List Episode)) : RecentOutcome :=
  if !authorized then .notAuthorized
  else
    match recent_episodes with
    | none => .noData
    | some input =>
      match runRecent ext lib0 input with
      | none => .raised
      | some st =>
        let sent := recent_submissions now st
        .finished (sent.any fun g => !sendOk g.1 g.2) sent

/-! ## Helper lemmas -/

lemma nlookup_append {β : Type} (m : List (Nat × β)) (k : Nat) (v : β) (key : Nat) :
    nlookup (m ++ [(k, v)]) key =
      match nlookup m key with
      | some x => some x
      | none => if k = key then some v else none := by
  induction m with
  | nil => rfl
  | cons kv rest ih =>
    obtain ⟨k0, v0⟩ := kv
    by_cases h : k0 = key
    · simp [nlookup, h]
    · simp only [List.cons_append, nlookup, if_neg h]
      exact ih

lemma zlookup_eq_none_iff {β : Type} (m : List (Int × β)) (t : Int) :
    zlookup m t = none ↔ t ∉ m.map Prod.fst := by
  induction m with
  | nil => simp [zlookup]
  | cons kv rest ih =>
    obtain ⟨k0, v0⟩ := kv
    by_cases h : k0 = t
    · simp [zlookup, h]
    · simp [zlookup, h, ih, Ne.symm h]

lemma groupOf_appendGroup (m : List (Int × List Episode)) (t : Int) (e : Episode) (u : Int) :
    groupOf (appendGroup m t e) u = if u = t then groupOf m u ++ [e] else groupOf m u := by
  induction m with
  | nil =>
    by_cases h : u = t
    · subst h
      simp [appendGroup, groupOf, zlookup]
    · have h2 : ¬ t = u := fun hc => h hc.symm
      simp [appendGroup, groupOf, zlookup, h, h2]
  | cons kv rest ih =>
    obtain ⟨k0, l0⟩ := kv
    by_cases hk : k0 = t
    · subst hk
      by_cases hu : k0 = u
      · subst hu
        simp [appendGroup, groupOf, zlookup]
      · have hu2 : ¬ u = k0 := fun hc => hu hc.symm
        simp [appendGroup, groupOf, zlookup, hu, hu2]
    · by_cases hu : k0 = u
      · subst hu
        simp [appendGroup, groupOf, zlookup, hk]
      · simp only [appendGroup, if_neg hk, groupOf, zlookup, if_neg hu]
        exact ih

lemma keys_appendGroup (m : List (Int × List Episode)) (t : Int) (e : Episode) :
    (appendGroup m t e).map Prod.fst =
      if t ∈ m.map Prod.fst then m.map Prod.fst else m.map Prod.fst ++ [t] := by
  induction m with
  | nil => simp [appendGroup]
  | cons kv rest ih =>
    obtain ⟨k0, l0⟩ := kv
    by_cases hk : k0 = t
    · simp [appendGroup, hk]
    · simp only [appendGroup, if_neg hk, List.map_cons, ih, List.mem_cons]
      by_cases hm : t ∈ rest.map Prod.fst
      · simp [hm, hk, Ne.symm hk]
      · simp [hm, hk, Ne.symm hk]

lemma keys_appendGroup_nodup (m : List (Int × List Episode)) (t : Int) (e : Episode)
    (h : (m.map Prod.fst).Nodup) : ((appendGroup m t e).map Prod.fst).Nodup := by
  rw [keys_appendGroup]
  by_cases hm : t ∈ m.map Prod.fst
  · simpa [hm] using h
  · rw [if_neg hm]
    simp only [List.nodup_append, List.nodup_cons, List.not_mem_nil, not_false_iff,
      List.nodup_nil, and_true, List.disjoint_singleton, true_and]
    exact ⟨h, hm⟩

lemma applyWrites_resolve_ne (ext : String → String → Option Int) (s : KodiShow)
    (lib : Nat → KodiShow) (sid : Nat) (h : sid ≠ s.tvshowid) :
    applyWrites lib (_get_tvmaze_id ext s).writes sid = lib sid := by
  unfold _get_tvmaze_id
  cases _get_unique_id s.uniqueid with
  | none => rfl
  | some uid =>
    by_cases hp : uid.provider = "tvmaze"
    · simp only [if_pos hp]
      cases py_int uid.show_id <;> rfl
    · simp only [if_neg hp]
      cases ext uid.show_id uid.provider with
      | none => rfl
      | some tid => simp [applyWrites, h]

lemma nat_beq_false {a b : Nat} (h : ¬ a = b) : (a == b) = false := by
  simpa using h

lemma nlookup_append_none {β : Type} (m : List (Nat × β)) (k key : Nat) (v : β)
    (h : nlookup m key = none) :
    nlookup (m ++ [(k, v)]) key = if k = key then some v else none := by
  rw [nlookup_append, h]

lemma nlookup_append_some {β : Type} (m : List (Nat × β)) (k key : Nat) (v : β) {x : β}
    (h : nlookup m key = some x) : nlookup (m ++ [(k, v)]) key = some x := by
  rw [nlookup_append, h]

/-- Loop invariant of the grouping phase of `update_recent_episodes`, after
the episodes in `p` have been processed: the cache and the groups agree with
resolution against the initial library state, and the resolution log counts
one invocation per distinct successfully resolved show but one invocation
per episode of an unresolved show. -/
structure RecentInv (ext : String → String → Option Int) (lib0 : Nat → KodiShow)
    (p : List Episode) (st : RecentState) : Prop where
  lib_eq : ∀ sid, nlookup st.id_mapping sid = none → st.lib sid = lib0 sid
  map_sound : ∀ sid tid, nlookup st.id_mapping sid = some tid →
    pureId ext lib0 sid = some tid
  map_dom : ∀ sid, (nlookup st.id_mapping sid).isSome =
    ((pureId ext lib0 sid).isSome && p.any fun x => x.tvshowid == sid)
  groups : ∀ t, groupOf st.episode_mapping t =
    p.filter fun x => pureId ext lib0 x.tvshowid == some t
  keys_nodup : (st.episode_mapping.map Prod.fst).Nodup
  log_count : ∀ sid, st.resolve_log.count sid =
    if (pureId ext lib0 sid).isSome then
      (if p.any (fun x => x.tvshowid == sid) then 1 else 0)
    else (p.filter fun x => x.tvshowid == sid).length

lemma runRecentAux_inv (ext : String → String → Option Int) (lib0 : Nat → KodiShow)
    (hlib : ∀ sid, (lib0 sid).tvshowid = sid) :
    ∀ (input p : List Episode) (st : RecentState),
      RecentInv ext lib0 p st →
      (∀ e ∈ input, pureRes ext lib0 e.tvshowid ≠ .valueError) →
      ∃ st2, runRecentAux ext st input = some st2 ∧ RecentInv ext lib0 (p ++ input) st2 := by
  intro input
  induction input with
  | nil =>
    intro p st inv _
    exact ⟨st, rfl, by simpa using inv⟩
  | cons e rest ih =>
    intro p st inv hcrash
    have hstep2 :
        ∃ st2, recentStep ext st e = some st2 ∧ RecentInv ext lib0 (p ++ [e]) st2 := by
      cases hA : nlookup st.id_mapping e.tvshowid with
      | some tid =>
        have htid : pureId ext lib0 e.tvshowid = some tid := inv.map_sound _ _ hA
        refine ⟨{ st with episode_mapping := appendGroup st.episode_mapping tid e },
          by simp [recentStep, hA], ?_⟩
        refine ⟨inv.lib_eq, inv.map_sound, ?_, ?_,
          keys_appendGroup_nodup _ _ _ inv.keys_nodup, ?_⟩
        · intro sid
          have hold := inv.map_dom sid
          show (nlookup st.id_mapping sid).isSome = _
          by_cases hss : e.tvshowid = sid
          · rw [hss] at hA htid
            rw [hA] at hold ⊢
            simp only [Option.isSome_some] at hold ⊢
            have h2 := hold.symm
            rw [Bool.and_eq_true] at h2
            rw [List.any_append]
            simp [h2.1, h2.2]
          · have hne : (e.tvshowid == sid) = false := nat_beq_false hss
            rw [hold, List.any_append]
            simp [hne]
        · intro t
          show groupOf (appendGroup st.episode_mapping tid e) t = _
          rw [groupOf_appendGroup, List.filter_append, ← inv.groups t]
          by_cases ht : t = tid
          · rw [if_pos ht, ht]
            congr 1
            simp [List.filter_singleton, htid]
          · rw [if_neg ht]
            have hne : (pureId ext lib0 e.tvshowid == some t) = false := by
              rw [htid]
              simpa using fun hc : tid = t => ht hc.symm
            simp [List.filter_singleton, hne]
        · intro sid
          have hold := inv.log_count sid
          show st.resolve_log.count sid = _
          by_cases hss : e.tvshowid = sid
          · rw [hss] at hA htid
            have hisSome : (pureId ext lib0 sid).isSome = true := by rw [htid]; rfl
            have hdom := inv.map_dom sid
            rw [hA] at hdom
            simp only [Option.isSome_some] at hdom
            have h2 := hdom.symm
            rw [Bool.and_eq_true] at h2
            rw [hold, List.any_append]
            simp [hisSome, h2.2]
          · have hne : (e.tvshowid == sid) = false := nat_beq_false hss
            rw [hold, List.any_append, List.filter_append]
            simp [hne, List.filter_singleton]
      | none =>
        have hlibsid : st.lib e.tvshowid = lib0 e.tvshowid := inv.lib_eq _ hA
        cases hres : pureRes ext lib0 e.tvshowid with
        | valueError => exact absurd hres (hcrash e (List.mem_cons_self e rest))
        | ok tid? =>
          have hres2 : (_get_tvmaze_id ext (lib0 e.tvshowid)).result = .ok tid? := hres
          cases tid? with
          | none =>
            have hpid : pureId ext lib0 e.tvshowid = none := by
              simp [pureId, hres]
            refine ⟨{ st with resolve_log := st.resolve_log ++ [e.tvshowid] },
              by simp [recentStep, hA, hlibsid, hres2], ?_⟩
            refine ⟨inv.lib_eq, inv.map_sound, ?_, ?_, inv.keys_nodup, ?_⟩
            · intro sid
              have hold := inv.map_dom sid
              show (nlookup st.id_mapping sid).isSome = _
              rw [hold, List.any_append]
              by_cases hss : e.tvshowid = sid
              · rw [← hss, hpid]
                simp
              · have hne : (e.tvshowid == sid) = false := nat_beq_false hss
                simp [hne]
            · intro t
              show groupOf st.episode_mapping t = _
              rw [inv.groups t, List.filter_append]
              have hne : (pureId ext lib0 e.tvshowid == some t) = false := by
                rw [hpid]
                rfl
              simp [List.filter_singleton, hne]
            · intro sid
              have hold := inv.log_count sid
              show (st.resolve_log ++ [e.tvshowid]).count sid = _
              rw [List.count_append, hold]
              by_cases hss : e.tvshowid = sid
              · rw [hss] at hpid ⊢
                rw [hpid]
                rw [List.any_append, List.filter_append]
                simp [List.count_singleton, List.filter_singleton, hss]
              · have hne : (e.tvshowid == sid) = false := nat_beq_false hss
                have hne2 : (sid == e.tvshowid) = false :=
                  nat_beq_false fun hc => hss hc.symm
                have hcnt : List.count sid [e.tvshowid] = 0 := by
                  simp [List.count_cons, hne2, hss]
                rw [hcnt, List.any_append, List.filter_append]
                simp [hne, List.filter_singleton, hss]
          | some tid =>
            have hpid : pureId ext lib0 e.tvshowid = some tid := by
              simp [pureId, hres]
            refine ⟨{ lib := applyWrites st.lib (_get_tvmaze_id ext (lib0 e.tvshowid)).writes
                      id_mapping := st.id_mapping ++ [(e.tvshowid, tid)]
                      episode_mapping := appendGroup st.episode_mapping tid e
                      resolve_log := st.resolve_log ++ [e.tvshowid] },
              by simp [recentStep, hA, hlibsid, hres2], ?_⟩
            refine ⟨?_, ?_, ?_, ?_, keys_appendGroup_nodup _ _ _ inv.keys_nodup, ?_⟩
            · intro sid hnone
              show applyWrites st.lib (_get_tvmaze_id ext (lib0 e.tvshowid)).writes sid = _
              cases hm : nlookup st.id_mapping sid with
              | some x =>
                rw [nlookup_append_some _ _ _ _ hm] at hnone
                exact Option.noConfusion hnone
              | none =>
                rw [nlookup_append_none _ _ _ _ hm] at hnone
                have hc : ¬ e.tvshowid = sid := by
                  intro hc
                  rw [if_pos hc] at hnone
                  exact Option.noConfusion hnone
                have hne2 : sid ≠ (lib0 e.tvshowid).tvshowid := by
                  rw [hlib]
                  exact fun h2 => hc h2.symm
                rw [applyWrites_resolve_ne ext (lib0 e.tvshowid) st.lib sid hne2]
                exact inv.lib_eq sid hm
            · intro sid tid' hsome
              cases hm : nlookup st.id_mapping sid with
              | some x =>
                rw [nlookup_append_some _ _ _ _ hm] at hsome
                exact inv.map_sound sid tid' (hm.trans hsome)
              | none =>
                rw [nlookup_append_none _ _ _ _ hm] at hsome
                by_cases hc : e.tvshowid = sid
                · rw [if_pos hc] at hsome
                  rw [← hc, hpid]
                  exact hsome
                · rw [if_neg hc] at hsome
                  exact Option.noConfusion hsome
            · intro sid
              show (nlookup (st.id_mapping ++ [(e.tvshowid, tid)]) sid).isSome = _
              have hold := inv.map_dom sid
              by_cases hss : e.tvshowid = sid
              · rw [hss] at hA hpid
                rw [nlookup_append_none _ _ _ _ hA, hss, if_pos rfl, hpid, List.any_append]
                have hany : ([e].any fun x => x.tvshowid == sid) = true := by
                  simp [hss]
                simp [hany]
              · have hne : (e.tvshowid == sid) = false := nat_beq_false hss
                cases hm : nlookup st.id_mapping sid with
                | some x =>
                  rw [nlookup_append_some _ _ _ _ hm]
                  rw [hm] at hold
                  rw [hold, List.any_append]
                  simp [hne]
                | none =>
                  rw [nlookup_append_none _ _ _ _ hm, if_neg hss]
                  rw [hm] at hold
                  rw [List.any_append]
                  simp only [Option.isSome_none] at hold ⊢
                  simp only [List.any_cons, List.any_nil, hne, Bool.or_false]
                  exact hold
            · intro t
              show groupOf (appendGroup st.episode_mapping tid e) t = _
              rw [groupOf_appendGroup, List.filter_append, ← inv.groups t]
              by_cases ht : t = tid
              · rw [if_pos ht, ht]
                congr 1
                simp [List.filter_singleton, hpid]
              · rw [if_neg ht]
                have hne : (pureId ext lib0 e.tvshowid == some t) = false := by
                  rw [hpid]
                  simpa using fun hc : tid = t => ht hc.symm
                simp [List.filter_singleton, hne]
            · intro sid
              have hold := inv.log_count sid
              show (st.resolve_log ++ [e.tvshowid]).count sid = _
              rw [List.count_append, hold]
              by_cases hss : e.tvshowid = sid
              · rw [hss] at hA hpid
                have hisSome : (pureId ext lib0 sid).isSome = true := by rw [hpid]; rfl
                have hdom := inv.map_dom sid
                rw [hA, hpid] at hdom
                simp only [Option.isSome_none, Option.isSome_some, Bool.true_and] at hdom
                rw [hss, List.any_append]
                simp [hisSome, ← hdom, List.count_singleton, hss]
              · have hne : (e.tvshowid == sid) = false := nat_beq_false hss
                have hne2 : (sid == e.tvshowid) = false :=
                  nat_beq_false fun hc => hss hc.symm
                have hcnt : List.count sid [e.tvshowid] = 0 := by
                  simp [List.count_cons, hne2, hss]
                rw [hcnt, List.any_append, List.filter_append]
                simp [hne, List.filter_singleton, hss]
    obtain ⟨st2, hstep, inv2⟩ := hstep2
    obtain ⟨st3, hrun, hinv⟩ :=
      ih (p ++ [e]) st2 inv2 (fun x hx => hcrash x (List.mem_cons_of_mem e hx))
    refine ⟨st3, ?_, ?_⟩
    · simp [runRecentAux, hstep, hrun]
    · simpa [List.append_assoc] using hinv

lemma recentInv_init (ext : String → String → Option Int) (lib0 : Nat → KodiShow) :
    RecentInv ext lib0 [] ⟨lib0, [], [], []⟩ := by
  refine ⟨?_, ?_, ?_, ?_, ?_, ?_⟩
  · intro sid _
    rfl
  · intro sid tid h
    exact Option.noConfusion h
  · intro sid
    simp [nlookup]
  · intro t
    simp [groupOf, zlookup]
  · simp
  · intro sid
    simp

lemma runRecent_spec (ext : String → String → Option Int) (lib0 : Nat → KodiShow)
    (input : List Episode) (hlib : ∀ sid, (lib0 sid).tvshowid = sid)
    (hcrash : ∀ e ∈ input, pureRes ext lib0 e.tvshowid ≠ .valueError) :
    ∃ st, runRecent ext lib0 input = some st ∧ RecentInv ext lib0 input st := by
  obtain ⟨st, h1, h2⟩ := runRecentAux_inv ext lib0 hlib input [] ⟨lib0, [], [], []⟩
    (recentInv_init ext lib0) hcrash
  exact ⟨st, h1, by simpa using h2⟩

lemma runAllAux_spec (env : AllEnv) :
    ∀ (shows : List KodiShow) (errors : Bool) (sent : List (Int × List TvmazeEpisode)),
      (∀ s ∈ shows, (_get_tvmaze_id env.ext s).result ≠ .valueError) →
      (∀ t p, env.sendOk t p = true) →
      runAllAux env errors sent shows = some (errors, sent ++ shows.filterMap (submitOf env)) := by
  intro shows
  induction shows with
  | nil =>
    intro errors sent _ _
    simp [runAllAux]
  | cons s rest ih =>
    intro errors sent hcrash hsend
    have hrest := fun x hx => hcrash x (List.mem_cons_of_mem s hx)
    cases hres : (_get_tvmaze_id env.ext s).result with
    | valueError => exact absurd hres (hcrash s (List.mem_cons_self s rest))
    | ok tid? =>
      cases tid? with
      | none =>
        simp only [runAllAux, hres]
        rw [ih errors sent hrest hsend]
        simp [List.filterMap_cons, submitOf, hres]
      | some tid =>
        cases heps : env.episodes s.tvshowid with
        | none =>
          simp only [runAllAux, hres, heps]
          rw [ih errors sent hrest hsend]
          simp [List.filterMap_cons, submitOf, hres, heps]
        | some eps =>
          simp only [runAllAux, hres, heps, hsend, if_true]
          rw [ih errors (sent ++ [(tid, _prepare_episode_list env.now eps)]) hrest hsend]
          simp [List.filterMap_cons, submitOf, hres, heps, List.append_assoc]

/-! ## Claims -/

lemma _get_unique_id_of_tvmaze (d : List (String × String)) (v : String)
    (h : alookup d "tvmaze" = some v) : _get_unique_id d = some ⟨v, "tvmaze"⟩ := by
  unfold _get_unique_id SUPPORTED_IDS _get_unique_id_loop
  rw [h]
  simp

/-- C3: `_get_unique_id` scans providers in the fixed priority order
`tvmaze`, `tvdb`, `imdb` and returns the first present identifier with its
provider name, except that a `tvdb` match is returned with provider name
`thetvdb`; if none of the three keys is present it returns `none`. -/
theorem c3_unique_id_priority_order (d : List (String × String)) :
    _get_unique_id d =
      match alookup d "tvmaze" with
      | some v => some ⟨v, "tvmaze"⟩
      | none =>
        match alookup d "tvdb" with
        | some v => some ⟨v, "thetvdb"⟩
        | none =>
          match alookup d "imdb" with
          | some v => some ⟨v, "imdb"⟩
          | none => none := by
  cases h1 : alookup d "tvmaze" with
  | some v => simp [_get_unique_id, SUPPORTED_IDS, _get_unique_id_loop, h1]
  | none =>
    cases h2 : alookup d "tvdb" with
    | some v => simp [_get_unique_id, SUPPORTED_IDS, _get_unique_id_loop, h1, h2]
    | none =>
      cases h3 : alookup d "imdb" <;>
        simp [_get_unique_id, SUPPORTED_IDS, _get_unique_id_loop, h1, h2, h3]

/-- C4: `_prepare_episode_list` returns exactly one update record per input
episode with non-zero season (season-0 episodes are excluded), each record's
status is `WATCHED` iff the play count is nonzero and `ACQUIRED` otherwise,
and `SKIPPED` is never produced. -/
theorem c4_prepare_episode_list_shape (now : Nat) (eps : List Episode) :
    _prepare_episode_list now eps =
      (eps.filter fun e => e.season != 0).map
        (fun e => ⟨e.season, e.episode, now,
          if e.playcount ≠ 0 then StatusType.WATCHED else StatusType.ACQUIRED⟩) ∧
    ((_prepare_episode_list now eps).map TvmazeEpisode.type).all
      (fun t => t != StatusType.SKIPPED) = true := by
  have h1 : _prepare_episode_list now eps =
      (eps.filter fun e => e.season != 0).map
        (fun e => ⟨e.season, e.episode, now,
          if e.playcount ≠ 0 then StatusType.WATCHED else StatusType.ACQUIRED⟩) := by
    induction eps with
    | nil => rfl
    | cons e rest ih =>
      by_cases hs : e.season ≠ 0
      · simp [_prepare_episode_list, hs, List.filter_cons, ih]
      · simp [_prepare_episode_list, hs, List.filter_cons, ih]
  refine ⟨h1, ?_⟩
  rw [h1, List.all_eq_true]
  intro t ht
  rw [List.map_map, List.mem_map] at ht
  obtain ⟨e, _, hf⟩ := ht
  rw [← hf]
  by_cases hp : e.playcount = 0 <;>
    simp [hp, StatusType.WATCHED, StatusType.ACQUIRED, StatusType.SKIPPED]

/-- C5: for a show whose `uniqueid` dictionary holds a `tvmaze` identifier
(that parses as an integer; claim C10 covers the non-parsing case), the
resolver returns that identifier converted to an integer with no remote
lookup call and no write-back. -/
theorem c5_native_id_direct (ext : String → String → Option Int) (s : KodiShow)
    (v : String) (n : Int) (h1 : alookup s.uniqueid "tvmaze" = some v)
    (h2 : py_int v = some n) :
    _get_tvmaze_id ext s = ⟨.ok (some n), [], []⟩ := by
  unfold _get_tvmaze_id
  rw [_get_unique_id_of_tvmaze s.uniqueid v h1]
  simp [h2]

/-- Witness for C5 at a concrete show with `uniqueid = {tvmaze: "42"}`. -/
theorem c5_native_id_direct_witness :
    alookup [("tvmaze", "42")] "tvmaze" = some "42" ∧ py_int "42" = some 42 ∧
    _get_tvmaze_id (fun _ _ => none) ⟨7, "A", [("tvmaze", "42")]⟩ =
      ⟨.ok (some 42), [], []⟩ :=
  ⟨rfl, rfl,
    c5_native_id_direct (fun _ _ => none) ⟨7, "A", [("tvmaze", "42")]⟩ "42" 42 rfl rfl⟩

/-- C8: `_get_tvmaze_id` signals failure by returning `none` rather than
raising: with no supported-provider identifier it returns `none` with no
remote call; when the remote lookup fails it returns `none` after the one
failed call, with no write-back. -/
theorem c8_failure_returns_none (ext : String → String → Option Int) (s : KodiShow) :
    (_get_unique_id s.uniqueid = none → _get_tvmaze_id ext s = ⟨.ok none, [], []⟩) ∧
    (∀ uid, _get_unique_id s.uniqueid = some uid → uid.provider ≠ "tvmaze" →
      ext uid.show_id uid.provider = none →
      _get_tvmaze_id ext s = ⟨.ok none, [(uid.show_id, uid.provider)], []⟩) := by
  constructor
  · intro h
    unfold _get_tvmaze_id
    rw [h]
  · intro uid h1 h2 h3
    unfold _get_tvmaze_id
    rw [h1]
    simp [h2, h3]

/-- Witness for C8: a show with no supported identifier, and a show whose
`imdb` lookup fails remotely. -/
theorem c8_failure_returns_none_witness :
    _get_unique_id ([] : List (String × String)) = none ∧
    _get_tvmaze_id (fun _ _ => none) ⟨1, "X", []⟩ = ⟨.ok none, [], []⟩ ∧
    _get_tvmaze_id (fun _ _ => none) ⟨2, "Y", [("imdb", "tt9")]⟩ =
      ⟨.ok none, [("tt9", "imdb")], []⟩ :=
  ⟨rfl, (c8_failure_returns_none (fun _ _ => none) ⟨1, "X", []⟩).1 rfl,
    (c8_failure_returns_none (fun _ _ => none) ⟨2, "Y", [("imdb", "tt9")]⟩).2
      ⟨"tt9", "imdb"⟩ rfl (by decide) rfl⟩

/-- C10: the native-namespace path of `_get_tvmaze_id` is not total: a
`tvmaze` identifier that does not parse as a decimal integer makes the
unguarded `int(...)` conversion raise (`valueError`) instead of returning
the unresolved value `none`. -/
theorem c10_nonnumeric_native_id_raises (ext : String → String → Option Int)
    (s : KodiShow) (v : String) (h1 : alookup s.uniqueid "tvmaze" = some v)
    (h2 : py_int v = none) :
    _get_tvmaze_id ext s = ⟨.valueError, [], []⟩ := by
  unfold _get_tvmaze_id
  rw [_get_unique_id_of_tvmaze s.uniqueid v h1]
  simp [h2]

/-- Witness for C10 at `uniqueid = {tvmaze: "abc"}`. -/
theorem c10_nonnumeric_native_id_raises_witness :
    alookup [("tvmaze", "abc")] "tvmaze" = some "abc" ∧ py_int "abc" = none ∧
    _get_tvmaze_id (fun _ _ => none) ⟨3, "Z", [("tvmaze", "abc")]⟩ =
      ⟨.valueError, [], []⟩ :=
  ⟨rfl, rfl,
    c10_nonnumeric_native_id_raises (fun _ _ => none) ⟨3, "Z", [("tvmaze", "abc")]⟩
      "abc" rfl rfl⟩

/-- C7: for a show with only a non-native provider identifier whose remote
lookup succeeds, `_get_tvmaze_id` records the `set_show_uniqueid` write-back
of the resolved id onto the show's record before returning it, and resolving
the record with that write-back applied yields the same remote id again
(and needs no further remote call). -/
theorem c7_write_through_idempotent (ext : String → String → Option Int) (s : KodiShow)
    (uid : UniqueId) (tid : Int) (h1 : _get_unique_id s.uniqueid = some uid)
    (h2 : uid.provider ≠ "tvmaze") (h3 : ext uid.show_id uid.provider = some tid) :
    _get_tvmaze_id ext s =
      ⟨.ok (some tid), [(uid.show_id, uid.provider)], [(s.tvshowid, tid)]⟩ ∧
    _get_tvmaze_id ext (set_show_uniqueid s tid) = ⟨.ok (some tid), [], []⟩ := by
  constructor
  · unfold _get_tvmaze_id
    rw [h1]
    simp [h2, h3]
  · unfold _get_tvmaze_id
    have hu : _get_unique_id (set_show_uniqueid s tid).uniqueid =
        some ⟨py_str_int tid, "tvmaze"⟩ := by
      apply _get_unique_id_of_tvmaze
      simp [set_show_uniqueid, alookup]
    rw [hu]
    simp [py_int_py_str_int]

/-- Witness for C7: show with `uniqueid = {tvdb: "321"}` resolved remotely to
id 99, then resolved again from the written-back record. -/
theorem c7_write_through_idempotent_witness :
    _get_unique_id [("tvdb", "321")] = some ⟨"321", "thetvdb"⟩ ∧
    ("thetvdb" : String) ≠ "tvmaze" ∧
    _get_tvmaze_id (fun _ _ => some 99) ⟨5, "B", [("tvdb", "321")]⟩ =
      ⟨.ok (some 99), [("321", "thetvdb")], [(5, 99)]⟩ ∧
    _get_tvmaze_id (fun _ _ => some 99) (set_show_uniqueid ⟨5, "B", [("tvdb", "321")]⟩ 99) =
      ⟨.ok (some 99), [], []⟩ := by
  have h := c7_write_through_idempotent (fun _ _ => some 99) ⟨5, "B", [("tvdb", "321")]⟩
    ⟨"321", "thetvdb"⟩ 99 rfl (by decide) rfl
  exact ⟨rfl, by decide, h.1, h.2⟩

/-- C9: `authorize_addon` writes the stored credentials only when the
confirmation dialog ends confirmed; an already-authorized user declining the
re-authorization prompt causes no token request and no settings change, an
invalid email causes no token request and no settings change, and every
unconfirmed outcome (remote authorization error, confirmation error,
cancellation) leaves the settings unchanged. -/
theorem c9_credentials_only_on_confirmation (env : AuthEnv) (st : Settings) :
    (env.authorized = true → env.reauth_answer = false →
      authorize_addon env st = ⟨st, [], none⟩) ∧
    (validEmail env.keyboard_text = false →
      (authorize_addon env st).settings = st ∧
        (authorize_addon env st).token_requests = []) ∧
    (is_confirmed_outcome env.confirm_outcome = false →
      (authorize_addon env st).settings = st) := by
  refine ⟨?_, ?_, ?_⟩
  · intro ha hr
    unfold authorize_addon
    rw [ha, hr]
    rfl
  · intro hv
    unfold authorize_addon
    by_cases h1 : (env.authorized && !env.reauth_answer) = true
    · rw [if_pos h1]
      exact ⟨rfl, rfl⟩
    · rw [if_neg h1]
      by_cases h2 : (!env.keyboard_confirmed) = true
      · rw [if_pos h2]
        exact ⟨rfl, rfl⟩
      · rw [if_neg h2]
        rw [if_pos (by rw [hv]; rfl)]
        exact ⟨rfl, rfl⟩
  · intro hc
    unfold authorize_addon
    by_cases h1 : (env.authorized && !env.reauth_answer) = true
    · rw [if_pos h1]
    · rw [if_neg h1]
      by_cases h2 : (!env.keyboard_confirmed) = true
      · rw [if_pos h2]
      · rw [if_neg h2]
        by_cases h3 : (!validEmail env.keyboard_text) = true
        · rw [if_pos h3]
        · rw [if_neg h3]
          cases h4 : env.start_auth with
          | none => rfl
          | some pair =>
            cases h5 : env.confirm_outcome with
            | confirmed u k =>
              rw [h5] at hc
              exact Bool.noConfusion hc
            | errorMsg m => rfl
            | cancelled => rfl

/-- Witness for C9: already authorized, user declines the re-authorization
prompt; settings survive and no token request is made. -/
theorem c9_credentials_only_on_confirmation_witness :
    authorize_addon ⟨true, false, true, "a@b.c", some ("t", "u"), .cancelled⟩
      ⟨"u0", "k0"⟩ = ⟨⟨"u0", "k0"⟩, [], none⟩ :=
  (c9_credentials_only_on_confirmation
    ⟨true, false, true, "a@b.c", some ("t", "u"), .cancelled⟩ ⟨"u0", "k0"⟩).1 rfl rfl

/-! Concrete collaborator instances used by the remaining claims. -/

/-- A remote external-ID lookup that always fails. -/
def extFail : String → String → Option Int := fun _ _ => none

/-- A library whose every show carries only an `imdb` identifier, so remote
resolution is attempted and (under `extFail`) fails. -/
def libFail : Nat → KodiShow := fun sid => ⟨sid, "show", [("imdb", "tt1")]⟩

/-- A library whose every show carries the native identifier `tvmaze: "7"`. -/
def libOk : Nat → KodiShow := fun sid => ⟨sid, "show", [("tvmaze", "7")]⟩

def epShow5 : Episode := ⟨1, 1, 0, 5⟩

def epShow6 : Episode := ⟨1, 2, 3, 6⟩

/-- C2 counterexample: with two recent episodes of the same show 5 whose
resolution fails, `_get_tvmaze_id` is invoked twice for show 5 (the log is
`[5, 5]`), refuting "at most once per distinct local show id": failures are
not cached in `id_mapping`. -/
theorem c2_counterexample_failed_show_resolved_twice :
    Option.all (fun st => decide (st.resolve_log.count 5 ≤ 1))
      (runRecent extFail libFail [epShow5, epShow5]) = false ∧
    (runRecent extFail libFail [epShow5, epShow5]).map RecentState.resolve_log =
      some [5, 5] :=
  ⟨rfl, rfl⟩

/-- C2 (amended): in one recent-episodes pass that completes, for every
distinct local show id whose resolution succeeds, `_get_tvmaze_id` is
invoked at most once; a show whose resolution fails is re-attempted once per
episode of that show. -/
theorem c2_at_most_one_resolution_per_resolvable_show
    (ext : String → String → Option Int) (lib0 : Nat → KodiShow) (input : List Episode)
    (hlib : ∀ sid, (lib0 sid).tvshowid = sid)
    (hcrash : ∀ e ∈ input, pureRes ext lib0 e.tvshowid ≠ .valueError)
    (sid : Nat) (hsucc : (pureId ext lib0 sid).isSome = true) :
    Option.all (fun st => decide (st.resolve_log.count sid ≤ 1))
      (runRecent ext lib0 input) = true := by
  obtain ⟨st, hrun, inv⟩ := runRecent_spec ext lib0 input hlib hcrash
  rw [hrun]
  show decide (st.resolve_log.count sid ≤ 1) = true
  rw [decide_eq_true_eq, inv.log_count sid, if_pos hsucc]
  split <;> omega

/-- Witness for the amended C2 at a resolvable show with two episodes. -/
theorem c2_at_most_one_resolution_witness :
    (∀ e ∈ [epShow5, epShow5], pureRes extFail libOk e.tvshowid ≠
      ResolveResult.valueError) ∧
    (pureId extFail libOk 5).isSome = true ∧
    Option.all (fun st => decide (st.resolve_log.count 5 ≤ 1))
      (runRecent extFail libOk [epShow5, epShow5]) = true :=
  ⟨by decide, rfl,
    c2_at_most_one_resolution_per_resolvable_show extFail libOk [epShow5, epShow5]
      (fun _ => rfl) (by decide) 5 rfl⟩

/-- C6: in a completing recent-episodes pass, the submission loop makes
exactly one remote call per distinct resolved TVmaze show id, the group sent
for id `t` consists of exactly the fetched episodes whose show resolves to
`t`, and for any reordering of the fetched list the group contents are the
same up to permutation. -/
theorem c6_single_submission_per_remote_id (ext : String → String → Option Int)
    (sendOk : Int → List TvmazeEpisode → Bool) (now : Nat) (lib0 : Nat → KodiShow)
    (input : List Episode) (hlib : ∀ sid, (lib0 sid).tvshowid = sid)
    (hcrash : ∀ e ∈ input, pureRes ext lib0 e.tvshowid ≠ .valueError) :
    ∃ st, runRecent ext lib0 input = some st ∧
      (∃ errors, update_recent_episodes true ext sendOk now lib0 (some input) =
        .finished errors (recent_submissions now st)) ∧
      ((recent_submissions now st).map Prod.fst).Nodup ∧
      (∀ t, groupOf st.episode_mapping t =
        input.filter fun x => pureId ext lib0 x.tvshowid == some t) ∧
      (∀ input2, input.Perm input2 →
        ∃ st2, runRecent ext lib0 input2 = some st2 ∧
          ∀ t, (groupOf st2.episode_mapping t).Perm (groupOf st.episode_mapping t)) := by
  obtain ⟨st, hrun, inv⟩ := runRecent_spec ext lib0 input hlib hcrash
  refine ⟨st, hrun, ?_, ?_, inv.groups, ?_⟩
  · refine ⟨(recent_submissions now st).any fun g => !sendOk g.1 g.2, ?_⟩
    simp [update_recent_episodes, hrun]
  · have hkeys : (recent_submissions now st).map Prod.fst =
        st.episode_mapping.map Prod.fst := by
      simp [recent_submissions]
    rw [hkeys]
    exact inv.keys_nodup
  · intro input2 hperm
    have hcrash2 : ∀ e ∈ input2, pureRes ext lib0 e.tvshowid ≠ .valueError :=
      fun e he => hcrash e (hperm.mem_iff.mpr he)
    obtain ⟨st2, hrun2, inv2⟩ := runRecent_spec ext lib0 input2 hlib hcrash2
    refine ⟨st2, hrun2, fun t => ?_⟩
    rw [inv2.groups t, inv.groups t]
    exact (hperm.filter _).symm

/-- Witness for C6: two episodes of different shows that resolve to the same
TVmaze id 7 under `libOk`. -/
theorem c6_single_submission_witness :
    (∀ sid, (libOk sid).tvshowid = sid) ∧
    (∀ e ∈ [epShow5, epShow6], pureRes extFail libOk e.tvshowid ≠
      ResolveResult.valueError) ∧
    (∃ st, runRecent extFail libOk [epShow5, epShow6] = some st ∧
      (∃ errors, update_recent_episodes true extFail (fun _ _ => true) 1000 libOk
        (some [epShow5, epShow6]) = .finished errors (recent_submissions 1000 st)) ∧
      ((recent_submissions 1000 st).map Prod.fst).Nodup ∧
      (∀ t, groupOf st.episode_mapping t =
        [epShow5, epShow6].filter fun x => pureId extFail libOk x.tvshowid == some t) ∧
      (∀ input2, List.Perm [epShow5, epShow6] input2 →
        ∃ st2, runRecent extFail libOk input2 = some st2 ∧
          ∀ t, (groupOf st2.episode_mapping t).Perm (groupOf st.episode_mapping t))) :=
  ⟨fun _ => rfl, by decide,
    c6_single_submission_per_remote_id extFail (fun _ _ => true) 1000 libOk
      [epShow5, epShow6] (fun _ => rfl) (by decide)⟩

/-! Concrete full-sync scenario for C1: show A resolves natively to TVmaze
id 1, show B carries only an `imdb` id whose remote lookup fails, show C
resolves natively to id 3; every show has one season-1 episode with play
count 1, and every submission succeeds. -/

def showA : KodiShow := ⟨101, "A", [("tvmaze", "1")]⟩

def showB : KodiShow := ⟨102, "B", [("imdb", "tt2")]⟩

def showC : KodiShow := ⟨103, "C", [("tvmaze", "3")]⟩

def envC1 : AllEnv := ⟨extFail, fun _ => some [⟨1, 1, 1, 0⟩], fun _ _ => true, 1000⟩

/-- C1 counterexample: in the scenario of the claim (A resolves and submits,
B fails resolution, C resolves and submits), the run finishes with the
errors flag `false` — the end-of-run notification is "Update completed",
not "Update completed with errors" — while A's and C's episodes are
submitted and B's are not.  Resolution failures do not set the flag. -/
theorem c1_counterexample_resolution_failure_not_flagged :
    (_get_tvmaze_id extFail showB).result = .ok none ∧
    update_all_episodes true envC1 (some [showA, showB, showC]) =
      .finished false [(1, [⟨1, 1, 1000, 0⟩]), (3, [⟨1, 1, 1000, 0⟩])] ∧
    notificationOf (update_all_episodes true envC1 (some [showA, showB, showC])) ≠
      some "Update completed with errors" :=
  ⟨rfl, rfl, by decide⟩

/-- C1 (amended): in a full sync where every attempted submission succeeds
(and no native id conversion raises), the run finishes with the errors flag
`false` and the notification "Update completed", and the submissions are
exactly one per show that resolves (and has episodes), in order — so the
episodes of resolved shows reach the remote service while the episodes of
shows failing resolution do not; resolution failures alone never produce
the "completed with errors" notification. -/
theorem c1_errors_flag_only_from_submission_failures (env : AllEnv)
    (shows : List KodiShow)
    (hcrash : ∀ s ∈ shows, (_get_tvmaze_id env.ext s).result ≠ .valueError)
    (hsend : ∀ t p, env.sendOk t p = true) :
    update_all_episodes true env (some shows) =
      .finished false (shows.filterMap (submitOf env)) ∧
    notificationOf (update_all_episodes true env (some shows)) =
      some "Update completed" := by
  have h := runAllAux_spec env shows false [] hcrash hsend
  constructor
  · simp [update_all_episodes, h]
  · simp [update_all_episodes, h, notificationOf]

/-- Witness for the amended C1 on the concrete A/B/C scenario. -/
theorem c1_errors_flag_witness :
    (∀ s ∈ [showA, showB, showC], (_get_tvmaze_id envC1.ext s).result ≠
      ResolveResult.valueError) ∧
    update_all_episodes true envC1 (some [showA, showB, showC]) =
      .finished false ([showA, showB, showC].filterMap (submitOf envC1)) ∧
    notificationOf (update_all_episodes true envC1 (some [showA, showB, showC])) =
      some "Update completed" := by
  have h := c1_errors_flag_only_from_submission_failures envC1 [showA, showB, showC]
    (by decide) (fun _ _ => rfl)
  exact ⟨by decide, h.1, h.2⟩
